import Mathlib

/-!
Verification development for `telegram_cloud.py` (fmg75/telegram-cloud).

The program is a Streamlit front-end over a `TelegramCloudStorage` class.
The class keeps an in-memory catalog `self.index` (a Python dict mapping a
remote name to a metadata dict) and persists it to a LOCAL json file
`telegram_cloud_index.json` via `save_index` / `load_index`.  Binary payloads
are uploaded to a Telegram chat through the Bot API (`sendDocument`), and the
`file_id` returned by the API is recorded in the catalog.

The shallow embedding below models:
  - the catalog as an association list with Python-dict semantics
    (`lookup`, `insert` = overwrite-or-append, `erase`);
  - the index file as an optional document (missing file, malformed json, or
    a json value), with a small json AST standing for what `json.dump` /
    `json.load` exchange;
  - the external collaborators as explicit oracles: the md5 digest function
    is a parameter (hashlib is deterministic, which is all the claims use),
    the outcome of the `requests.post` call and of the file write are inputs;
  - each operation returns, besides its `(success, message)` pair, the new
    state and the list of Telegram Bot API calls it performed.
-/

namespace TelegramCloud

/-- Metadata dict stored per remote name in `self.index`
(`telegram_cloud.py`, lines 155-161). -/
structure IndexEntry where
  file_id : String
  hash : String
  size : Nat
  upload_date : String
  original_filename : String
deriving DecidableEq, Repr

/-- The in-memory catalog `self.index`: a Python dict, modelled as an
association list whose operations preserve insertion order exactly as
CPython dicts do. -/
abbrev Index := List (String × IndexEntry)

/-- Python `index[key]` / `key in index`, as an optional lookup. -/
def lookup : Index → String → Option IndexEntry
  | [], _ => none
  | (k, v) :: rest, key => if k = key then some v else lookup rest key

/-- Python `index[key] = val`: overwrite in place when the key is present,
append at the end otherwise. -/
def insert : Index → String → IndexEntry → Index
  | [], key, val => [(key, val)]
  | (k, v) :: rest, key, val =>
      if k = key then (k, val) :: rest else (k, v) :: insert rest key val

/-- Python `del index[key]`: remove the (unique, in a dict) binding. -/
def erase : Index → String → Index
  | [], _ => []
  | (k, v) :: rest, key => if k = key then rest else (k, v) :: erase rest key

/-- Json values exchanged through `json.dump` / `json.load`; the subset the
index file ever contains (strings, non-negative integers, objects). -/
inductive Json where
  | str (s : String)
  | num (n : Nat)
  | obj (fields : List (String × Json))

/-- Serialization of one metadata dict, as `json.dump` renders it. -/
def entryToJson (e : IndexEntry) : Json :=
  .obj [("file_id", .str e.file_id), ("hash", .str e.hash),
        ("size", .num e.size), ("upload_date", .str e.upload_date),
        ("original_filename", .str e.original_filename)]

/-- Serialization of the whole catalog (`json.dump(self.index, f)`). -/
def indexToJson (idx : Index) : Json :=
  .obj (idx.map (fun p => (p.1, entryToJson p.2)))

/-- Field access in a parsed json object. -/
def getField : List (String × Json) → String → Option Json
  | [], _ => none
  | (k, v) :: rest, key => if k = key then some v else getField rest key

def asStr : Json → Option String
  | .str s => some s
  | _ => none

def asNum : Json → Option Nat
  | .num n => some n
  | _ => none

/-- Reading one metadata dict back from json. -/
def entryOfJson : Json → Option IndexEntry
  | .obj fields => do
      let fid ← (getField fields "file_id").bind asStr
      let h ← (getField fields "hash").bind asStr
      let sz ← (getField fields "size").bind asNum
      let ud ← (getField fields "upload_date").bind asStr
      let ofn ← (getField fields "original_filename").bind asStr
      pure ⟨fid, h, sz, ud, ofn⟩
  | _ => none

/-- Reading the field list of a json object as catalog entries, in order. -/
def entriesOfJson : List (String × Json) → Option (List (String × IndexEntry))
  | [] => some []
  | (k, j) :: rest => do
      let e ← entryOfJson j
      let tail ← entriesOfJson rest
      pure ((k, e) :: tail)

/-- Rebuilding a dict from parsed pairs the way `json.load` does: start from
the empty dict and insert each pair in order (a later duplicate key wins). -/
def buildIndex (pairs : List (String × IndexEntry)) : Index :=
  pairs.foldl (fun acc p => insert acc p.1 p.2) []

/-- Reading a whole catalog back from json. -/
def indexOfJson : Json → Option Index
  | .obj fields => (entriesOfJson fields).map buildIndex
  | _ => none

/-- Content of the index file `telegram_cloud_index.json`: either text that
parses as json, or text on which `json.load` raises `JSONDecodeError`. -/
inductive IndexDoc where
  | valid (j : Json)
  | invalid

/-- Severity of the message logged by an operation, with the numeric values
of the Python `logging` module. -/
inductive LogLevel where
  | info
  | warning
  | error
deriving DecidableEq, Repr

def LogLevel.severity : LogLevel → Nat
  | .info => 20
  | .warning => 30
  | .error => 40

/-- State of one `TelegramCloudStorage` session: the in-memory catalog and
the index file on disk (`none` = the file does not exist). -/
structure CloudState where
  index : Index
  file : Option IndexDoc

/-- Telegram Bot API operations.  The source calls `sendDocument`, `getFile`
and the file-download URL; `pinChatMessage` / `unpinChatMessage` are the
further Bot API endpoints the specification talks about, included so that
statements about them can be expressed (the source never calls them). -/
inductive RemoteCall where
  | sendDocument (filename : String) (payload : List Nat)
  | getFile (file_id : String)
  | fetchFile (path : String)
  | pinChatMessage (message_id : Nat)
  | unpinChatMessage (message_id : Nat)
deriving DecidableEq, Repr

def isSendDocument : RemoteCall → Bool
  | .sendDocument _ _ => true
  | _ => false

/-- `load_index` (lines 95-106): read and parse the index file.
A missing file yields an empty catalog (logged at info level); a file that
`json.load` cannot parse yields an empty catalog and an error-level log.
`json.load` returns the parsed value untyped and the source assigns it to
`self.index` unchecked; the embedding types the catalog, so the valid-json
branch goes through `indexOfJson`, with `getD []` covering json documents
that do not denote a catalog (every document `save_index` writes does, as
proved below, so no theorem depends on that default). -/
def load_index (file : Option IndexDoc) : Index × LogLevel :=
  match file with
  | none => ([], .info)
  | some .invalid => ([], .error)
  | some (.valid j) => ((indexOfJson j).getD [], .info)

/-- `save_index` (lines 108-116): serialize `self.index` into the local
index file.  The write either succeeds or raises (`saveResult` is the
outcome of the `open`/`json.dump`; on failure the exception is re-raised).
No Telegram Bot API call is involved; the returned list of remote calls is
the (empty) trace.  The source opens the file in truncating write mode
before `json.dump` runs, so an interrupted write does NOT in general leave
the previous content in place; on failure this function only re-raises, and
what the interrupted write left on disk is an oracle input of the callers
(see `upload_file` and `delete_file`). -/
def save_index (saveResult : Except String Unit) (s : CloudState) :
    Except String CloudState × List RemoteCall :=
  match saveResult with
  | .ok _ => (.ok { s with file := some (.valid (indexToJson s.index)) }, [])
  | .error e => (.error e, [])

/-- `get_file_hash` (lines 118-122) delegates to `hashlib.md5`; the digest
function itself is an external library, passed as the parameter `md5`. -/
def get_file_hash (md5 : List Nat → String) (file_bytes : List Nat) : String :=
  md5 file_bytes

/-- Response json of a `sendDocument` request that returned an HTTP status:
`status_code`, the `ok` flag, `description` (with the
source-supplied default already folded in) and `result.document.file_id`. -/
structure SendResponse where
  status : Nat
  ok : Bool
  description : String
  file_id : String

/-- External outcomes one `upload_file` call can observe: what
`requests.post` does (raise, or return a response), `datetime.now()`, and
the outcome of the `save_index` write.  A failed write carries the raised
message together with the index-file content the interrupted write left on
disk: the file is opened in truncating write mode before `json.dump` runs,
so that content is the previous document only when the open itself failed,
and otherwise a truncated or partial (typically unparsable) document — the
embedding cannot determine it, so it is an oracle input. -/
structure UploadEnv where
  send : Except String SendResponse
  now : String
  saveResult : Except (String × Option IndexDoc) Unit

/-- Result of a catalog-mutating operation: the new session state, the trace
of Telegram Bot API calls performed, and the `(success, message)` pair the
source returns. -/
structure OpResult where
  state : CloudState
  calls : List RemoteCall
  success : Bool
  message : String

def sizeLimitMsg : String := "El archivo es demasiado grande (máximo 2GB)"

/-- Python `remote_name or filename` (line 130): `None` and the empty
string are both falsy, so both default to `filename`. -/
def resolveRemoteName (remote_name : Option String) (filename : String) : String :=
  match remote_name with
  | none => filename
  | some r => if r = "" then filename else r

/-- `upload_file` (lines 124-178).  Size gate, name defaulting, dedup by
md5 digest; then the `sendDocument` request, and on API success the
tentative catalog write followed by `save_index`.  When `save_index` raises,
the enclosing `except` returns failure WITHOUT reverting the tentative
entry (the in-memory catalog keeps it), and the index file on disk is left
as whatever the interrupted truncating write produced (the oracle value in
the failure payload). -/
def upload_file (md5 : List Nat → String) (env : UploadEnv) (s : CloudState)
    (file_bytes : List Nat) (filename : String) (remote_name : Option String) :
    OpResult :=
  let file_size := file_bytes.length
  if file_size > 2 * 1024 * 1024 * 1024 then
    ⟨s, [], false, sizeLimitMsg⟩
  else
    let rname := resolveRemoteName remote_name filename
    let file_hash := get_file_hash md5 file_bytes
    let dedup : Bool :=
      match lookup s.index rname with
      | some entry => entry.hash = file_hash
      | none => false
    if dedup then
      ⟨s, [], true, "El archivo \x27" ++ rname ++ "\x27 ya existe y es idéntico"⟩
    else
      match env.send with
      | .error e =>
          ⟨s, [.sendDocument filename file_bytes], false,
            "Error al subir archivo: " ++ e⟩
      | .ok resp =>
          if resp.status = 200 then
            if resp.ok then
              let entry : IndexEntry :=
                ⟨resp.file_id, file_hash, file_size, env.now, filename⟩
              let idx := insert s.index rname entry
              match env.saveResult with
              | .ok _ =>
                  ⟨⟨idx, some (.valid (indexToJson idx))⟩,
                    [.sendDocument filename file_bytes], true,
                    "Archivo subido exitosamente: " ++ rname⟩
              | .error ef =>
                  ⟨⟨idx, ef.2⟩, [.sendDocument filename file_bytes], false,
                    "Error al subir archivo: " ++ ef.1⟩
            else
              ⟨s, [.sendDocument filename file_bytes], false,
                "Error de API: " ++ resp.description⟩
          else
            ⟨s, [.sendDocument filename file_bytes], false,
              "Error HTTP: " ++ toString resp.status⟩

/-- `delete_file` (lines 222-235): not-found check, in-memory removal, then
`save_index`.  When `save_index` raises, the `except` returns failure
WITHOUT re-inserting the removed entry, and the index file on disk is left
as whatever the interrupted truncating write produced (the oracle value in
the failure payload, as in `UploadEnv.saveResult`).  No Telegram Bot API
call is made in any branch. -/
def delete_file (saveResult : Except (String × Option IndexDoc) Unit)
    (s : CloudState) (remote_name : String) : OpResult :=
  match lookup s.index remote_name with
  | none => ⟨s, [], false, "Archivo \x27" ++ remote_name ++ "\x27 no encontrado"⟩
  | some _ =>
      let idx := erase s.index remote_name
      match saveResult with
      | .ok _ =>
          ⟨⟨idx, some (.valid (indexToJson idx))⟩, [], true,
            "Archivo \x27" ++ remote_name ++ "\x27 eliminado del índice"⟩
      | .error ef =>
          ⟨⟨idx, ef.2⟩, [], false,
            "Error eliminando archivo del índice: " ++ ef.1⟩

/-! ### Basic lemmas about the dict operations -/

theorem lookup_eq_none_iff (idx : Index) (k : String) :
    lookup idx k = none ↔ k ∉ idx.map Prod.fst := by
  induction idx with
  | nil => simp [lookup]
  | cons p rest ih =>
      obtain ⟨k1, v⟩ := p
      by_cases h : k1 = k
      · subst h; simp [lookup]
      · simp [lookup, h, ih, Ne.symm h]

theorem lookup_insert_self (idx : Index) (k : String) (v : IndexEntry) :
    lookup (insert idx k v) k = some v := by
  induction idx with
  | nil => simp [insert, lookup]
  | cons p rest ih =>
      obtain ⟨k1, v1⟩ := p
      by_cases h : k1 = k
      · subst h; simp [insert, lookup]
      · simp [insert, lookup, h, ih]

theorem lookup_insert_ne (idx : Index) (k k1 : String) (v : IndexEntry)
    (h : k1 ≠ k) : lookup (insert idx k v) k1 = lookup idx k1 := by
  induction idx with
  | nil => simp [insert, lookup, Ne.symm h]
  | cons p rest ih =>
      obtain ⟨k2, v2⟩ := p
      by_cases h2 : k2 = k
      · subst h2; simp [insert, lookup, Ne.symm h]
      · simp [insert, lookup, h2, ih]

theorem insert_of_lookup_none {idx : Index} {k : String} (v : IndexEntry)
    (h : lookup idx k = none) : insert idx k v = idx ++ [(k, v)] := by
  induction idx with
  | nil => simp [insert]
  | cons p rest ih =>
      obtain ⟨k1, v1⟩ := p
      unfold lookup at h
      split at h
      · exact absurd h (by simp)
      · next hk => simp [insert, hk, ih h]

theorem lookup_erase_ne (idx : Index) (k k1 : String) (h : k1 ≠ k) :
    lookup (erase idx k) k1 = lookup idx k1 := by
  induction idx with
  | nil => simp [erase]
  | cons p rest ih =>
      obtain ⟨k2, v2⟩ := p
      by_cases h2 : k2 = k
      · subst h2; simp [erase, lookup, Ne.symm h]
      · simp [erase, lookup, h2, ih]

theorem lookup_erase_self {idx : Index} (k : String)
    (hnd : (idx.map Prod.fst).Nodup) : lookup (erase idx k) k = none := by
  induction idx with
  | nil => simp [erase, lookup]
  | cons p rest ih =>
      obtain ⟨k1, v⟩ := p
      simp only [List.map_cons, List.nodup_cons] at hnd
      by_cases h : k1 = k
      · subst h
        simp only [erase, if_pos rfl]
        exact (lookup_eq_none_iff rest k1).2 hnd.1
      · simp [erase, lookup, h, ih hnd.2]

theorem countP_key_eq_zero {idx : Index} {k : String}
    (h : lookup idx k = none) :
    idx.countP (fun p => p.1 = k) = 0 := by
  rw [lookup_eq_none_iff] at h
  rw [List.countP_eq_zero]
  intro p hp
  simp only [decide_eq_true_eq]
  intro heq
  exact h (heq ▸ List.mem_map_of_mem Prod.fst hp)

/-! ### Serialization round trip -/

theorem entryOfJson_entryToJson (e : IndexEntry) :
    entryOfJson (entryToJson e) = some e := by
  rfl

theorem entriesOfJson_map (idx : Index) :
    entriesOfJson (idx.map (fun p => (p.1, entryToJson p.2))) = some idx := by
  induction idx with
  | nil => rfl
  | cons p rest ih =>
      obtain ⟨k, e⟩ := p
      simp [entriesOfJson, entryOfJson_entryToJson, ih]

theorem foldl_insert_fresh (l : List (String × IndexEntry)) :
    ∀ acc : Index, (l.map Prod.fst).Nodup →
      (∀ p ∈ l, lookup acc p.1 = none) →
      l.foldl (fun a p => insert a p.1 p.2) acc = acc ++ l := by
  induction l with
  | nil => intro acc _ _; simp
  | cons p rest ih =>
      intro acc hnd hfresh
      obtain ⟨k, e⟩ := p
      simp only [List.map_cons, List.nodup_cons] at hnd
      have hk : lookup acc k = none := hfresh (k, e) (by simp)
      have hstep : insert acc k e = acc ++ [(k, e)] := insert_of_lookup_none e hk
      rw [List.foldl_cons]
      show rest.foldl (fun a p => insert a p.1 p.2) (insert acc k e) = acc ++ (k, e) :: rest
      rw [hstep, ih (acc ++ [(k, e)]) hnd.2, List.append_assoc]
      · rfl
      · intro q hq
        rw [lookup_eq_none_iff]
        simp only [List.map_append, List.mem_append]
        rintro (hmem | hmem)
        · exact absurd ((lookup_eq_none_iff acc q.1).1 (hfresh q (by simp [hq]))) (by simp [hmem])
        · simp only [List.map_cons, List.map_nil, List.mem_singleton] at hmem
          exact hnd.1 (hmem ▸ List.mem_map_of_mem Prod.fst hq)

theorem buildIndex_id {idx : Index} (hnd : (idx.map Prod.fst).Nodup) :
    buildIndex idx = idx := by
  have h := foldl_insert_fresh idx [] hnd (by intro p _; rfl)
  simpa [buildIndex] using h

theorem indexOfJson_indexToJson {idx : Index}
    (hnd : (idx.map Prod.fst).Nodup) :
    indexOfJson (indexToJson idx) = some idx := by
  simp [indexOfJson, indexToJson, entriesOfJson_map, buildIndex_id hnd]

/-! ### Branch equations for `upload_file` -/

/-- Equation for the fully successful branch of `upload_file`: size gate
passed, no dedup hit, HTTP 200 with `ok`, index write succeeded. -/
theorem upload_file_success_eq (md5 : List Nat → String) (env : UploadEnv)
    (s : CloudState) (file_bytes : List Nat) (filename : String)
    (remote_name : Option String) (resp : SendResponse)
    (hsize : ¬ file_bytes.length > 2 * 1024 * 1024 * 1024)
    (hdedup : ∀ ent, lookup s.index (resolveRemoteName remote_name filename) =
      some ent → ent.hash ≠ md5 file_bytes)
    (hsend : env.send = .ok resp) (hst : resp.status = 200)
    (hok : resp.ok = true) (hsave : env.saveResult = .ok ()) :
    upload_file md5 env s file_bytes filename remote_name =
      ⟨⟨insert s.index (resolveRemoteName remote_name filename)
          ⟨resp.file_id, md5 file_bytes, file_bytes.length, env.now, filename⟩,
        some (.valid (indexToJson (insert s.index
          (resolveRemoteName remote_name filename)
          ⟨resp.file_id, md5 file_bytes, file_bytes.length, env.now, filename⟩)))⟩,
       [.sendDocument filename file_bytes], true,
       "Archivo subido exitosamente: " ++ resolveRemoteName remote_name filename⟩ := by
  have hded : (match lookup s.index (resolveRemoteName remote_name filename) with
      | some entry => decide (entry.hash = md5 file_bytes)
      | none => false) = false := by
    cases hl : lookup s.index (resolveRemoteName remote_name filename) with
    | none => rfl
    | some ent => exact decide_eq_false (hdedup ent hl)
  simp [upload_file, get_file_hash, hsize, hded, hsend, hst, hok, hsave]

/-- Equation for the branch of `upload_file` where the document was sent
and acknowledged but the subsequent `save_index` raised: the tentative
entry stays in the in-memory catalog and failure is returned. -/
theorem upload_file_save_fail_eq (md5 : List Nat → String) (env : UploadEnv)
    (s : CloudState) (file_bytes : List Nat) (filename : String)
    (remote_name : Option String) (resp : SendResponse) (e : String)
    (f : Option IndexDoc)
    (hsize : ¬ file_bytes.length > 2 * 1024 * 1024 * 1024)
    (hdedup : ∀ ent, lookup s.index (resolveRemoteName remote_name filename) =
      some ent → ent.hash ≠ md5 file_bytes)
    (hsend : env.send = .ok resp) (hst : resp.status = 200)
    (hok : resp.ok = true) (hsave : env.saveResult = .error (e, f)) :
    upload_file md5 env s file_bytes filename remote_name =
      ⟨⟨insert s.index (resolveRemoteName remote_name filename)
          ⟨resp.file_id, md5 file_bytes, file_bytes.length, env.now, filename⟩,
        f⟩,
       [.sendDocument filename file_bytes], false,
       "Error al subir archivo: " ++ e⟩ := by
  have hded : (match lookup s.index (resolveRemoteName remote_name filename) with
      | some entry => decide (entry.hash = md5 file_bytes)
      | none => false) = false := by
    cases hl : lookup s.index (resolveRemoteName remote_name filename) with
    | none => rfl
    | some ent => exact decide_eq_false (hdedup ent hl)
  simp [upload_file, get_file_hash, hsize, hded, hsend, hst, hok, hsave]

/-- Equation for the dedup branch of `upload_file`: the resolved name is
already catalogued with the same digest, so the call is a no-op. -/
theorem upload_file_dedup_eq (md5 : List Nat → String) (env : UploadEnv)
    (s : CloudState) (file_bytes : List Nat) (filename : String)
    (remote_name : Option String) (ent : IndexEntry)
    (hsize : ¬ file_bytes.length > 2 * 1024 * 1024 * 1024)
    (hl : lookup s.index (resolveRemoteName remote_name filename) = some ent)
    (hhash : ent.hash = md5 file_bytes) :
    upload_file md5 env s file_bytes filename remote_name =
      ⟨s, [], true,
        "El archivo \x27" ++ resolveRemoteName remote_name filename ++
          "\x27 ya existe y es idéntico"⟩ := by
  have hded : (match lookup s.index (resolveRemoteName remote_name filename) with
      | some entry => decide (entry.hash = md5 file_bytes)
      | none => false) = true := by
    rw [hl]
    exact decide_eq_true hhash
  simp [upload_file, get_file_hash, hsize, hded]

/-- Whatever `upload_file` does, a catalog key other than the resolved
remote name is left unchanged. -/
theorem upload_file_lookup_ne (md5 : List Nat → String) (env : UploadEnv)
    (s : CloudState) (file_bytes : List Nat) (filename : String)
    (remote_name : Option String) (k : String)
    (hk : k ≠ resolveRemoteName remote_name filename) :
    lookup (upload_file md5 env s file_bytes filename remote_name).state.index k =
      lookup s.index k := by
  by_cases hsize : file_bytes.length > 2 * 1024 * 1024 * 1024
  · simp [upload_file, hsize]
  · cases hded : (match lookup s.index (resolveRemoteName remote_name filename) with
        | some entry => decide (entry.hash = md5 file_bytes)
        | none => false) with
    | true => simp [upload_file, get_file_hash, hsize, hded]
    | false =>
        cases hsend : env.send with
        | error e => simp [upload_file, get_file_hash, hsize, hded, hsend]
        | ok resp =>
            by_cases hst : resp.status = 200
            · cases hok : resp.ok with
              | false => simp [upload_file, get_file_hash, hsize, hded, hsend, hst, hok]
              | true =>
                  cases hsave : env.saveResult with
                  | ok u =>
                      simp [upload_file, get_file_hash, hsize, hded, hsend, hst, hok, hsave,
                        lookup_insert_ne _ _ _ _ hk]
                  | error e =>
                      simp [upload_file, get_file_hash, hsize, hded, hsend, hst, hok, hsave,
                        lookup_insert_ne _ _ _ _ hk]
            · simp [upload_file, get_file_hash, hsize, hded, hsend, hst]

/-! ### Concrete instances used by witnesses and counterexamples -/

/-- Concrete digest oracle (deterministic, as `hashlib.md5` is). -/
def md5c : List Nat → String := fun b => "h" ++ toString b.length

def respOk : SendResponse := ⟨200, true, "", "fid1"⟩

def envOk : UploadEnv := ⟨.ok respOk, "2024-01-01T00:00:00", .ok ()⟩

/-- Environment whose index write raises; the truncating write left an
unparsable (truncated) document on disk. -/
def envSaveFail : UploadEnv :=
  ⟨.ok respOk, "2024-01-01T00:00:00", .error ("disk", some .invalid)⟩

def st0 : CloudState := ⟨[], none⟩

def entry0 : IndexEntry := ⟨"fid0", "hX", 3, "2023-01-01T00:00:00", "a.txt"⟩

def st1 : CloudState := ⟨[("a.txt", entry0)], none⟩

/-! ### Claims -/

/-- C1 (counterexample): the claim says a successful save issues the Remote
Object Channel sequence upload, then pin, then unpin.  On a concrete state,
a successful `save_index` issues no remote call at all, so its trace is not
of that shape for any call arguments. -/
theorem save_index_calls_counterexample :
    ¬ ∃ (f : String) (p : List Nat) (m n : Nat),
      (save_index (.ok ()) st0).2 =
        [RemoteCall.sendDocument f p, RemoteCall.pinChatMessage m,
          RemoteCall.unpinChatMessage n] := by
  rintro ⟨f, p, m, n, h⟩
  simp [save_index] at h

/-- C1 (amended): `save_index` serializes the index and writes it to the
local index file; it performs no Remote Object Channel call whatsoever (no
upload, no pin, no unpin), its call trace being empty in every case. -/
theorem save_index_local_only (r : Except String Unit) (s : CloudState) :
    (save_index r s).2 = [] ∧
      (r = .ok () →
        (save_index r s).1 =
          .ok ⟨s.index, some (.valid (indexToJson s.index))⟩) := by
  constructor
  · cases r <;> rfl
  · rintro rfl
    rfl

/-- Witness for `save_index_local_only` at the concrete state `st1`. -/
theorem save_index_local_only_witness :
    (save_index (.ok ()) st1).2 = [] ∧
      (save_index (.ok ()) st1).1 =
        .ok ⟨st1.index, some (.valid (indexToJson st1.index))⟩ :=
  ⟨(save_index_local_only (.ok ()) st1).1,
    (save_index_local_only (.ok ()) st1).2 rfl⟩

/-- C2 (counterexample): the claim says that when the index save fails
right after the tentative entry was applied, the in-memory index after the
call equals the index before the call.  On a concrete run (empty catalog,
send acknowledged, write raising), `upload_file` returns failure but the
resulting in-memory index differs from the initial one. -/
theorem upload_file_no_rollback_counterexample :
    (upload_file md5c envSaveFail st0 [1, 2, 3] "a.txt" none).success = false ∧
    (upload_file md5c envSaveFail st0 [1, 2, 3] "a.txt" none).state.index ≠
      st0.index := by
  have h := upload_file_save_fail_eq md5c envSaveFail st0 [1, 2, 3] "a.txt" none
    respOk "disk" (some .invalid) (by decide)
    (by intro ent hent; simp [st0, lookup] at hent) rfl rfl rfl rfl
  rw [h]
  refine ⟨rfl, ?_⟩
  simp [st0, insert]

/-- C2 (amended): if the index save fails right after the tentative entry
was applied, `upload_file` returns failure, but it does NOT revert the
tentative entry: the in-memory index after the call still holds the newly
written entry; the index file on disk holds whatever the interrupted
truncating write left there. -/
theorem upload_file_save_failure_keeps_entry
    (md5 : List Nat → String) (env : UploadEnv) (s : CloudState)
    (file_bytes : List Nat) (filename : String) (remote_name : Option String)
    (resp : SendResponse) (e : String) (f : Option IndexDoc)
    (hsize : ¬ file_bytes.length > 2 * 1024 * 1024 * 1024)
    (hdedup : ∀ ent, lookup s.index (resolveRemoteName remote_name filename) =
      some ent → ent.hash ≠ md5 file_bytes)
    (hsend : env.send = .ok resp) (hst : resp.status = 200)
    (hok : resp.ok = true) (hsave : env.saveResult = .error (e, f)) :
    (upload_file md5 env s file_bytes filename remote_name).success = false ∧
    (upload_file md5 env s file_bytes filename remote_name).message =
      "Error al subir archivo: " ++ e ∧
    (upload_file md5 env s file_bytes filename remote_name).state.index =
      insert s.index (resolveRemoteName remote_name filename)
        ⟨resp.file_id, md5 file_bytes, file_bytes.length, env.now, filename⟩ ∧
    (upload_file md5 env s file_bytes filename remote_name).state.file =
      f := by
  rw [upload_file_save_fail_eq md5 env s file_bytes filename remote_name resp
    e f hsize hdedup hsend hst hok hsave]
  exact ⟨rfl, rfl, rfl, rfl⟩

/-- Witness for `upload_file_save_failure_keeps_entry` on a concrete run. -/
theorem upload_file_save_failure_keeps_entry_witness :
    (upload_file md5c envSaveFail st0 [1, 2, 3] "a.txt" none).success = false ∧
    (upload_file md5c envSaveFail st0 [1, 2, 3] "a.txt" none).message =
      "Error al subir archivo: " ++ "disk" ∧
    (upload_file md5c envSaveFail st0 [1, 2, 3] "a.txt" none).state.index =
      insert st0.index (resolveRemoteName none "a.txt")
        ⟨respOk.file_id, md5c [1, 2, 3], [1, 2, 3].length, envSaveFail.now,
          "a.txt"⟩ ∧
    (upload_file md5c envSaveFail st0 [1, 2, 3] "a.txt" none).state.file =
      some IndexDoc.invalid :=
  upload_file_save_failure_keeps_entry md5c envSaveFail st0 [1, 2, 3] "a.txt"
    none respOk "disk" (some .invalid) (by decide)
    (by intro ent hent; simp [st0, lookup] at hent) rfl rfl rfl rfl

/-- C3 (counterexample): the claim says that when the index save fails after
the in-memory removal, `delete_file` re-inserts the removed entry so the
index after the call equals the index before.  On a concrete run the call
fails but the entry stays removed. -/
theorem delete_file_no_reinsert_counterexample :
    (delete_file (.error ("disk", some .invalid)) st1 "a.txt").success =
      false ∧
    (delete_file (.error ("disk", some .invalid)) st1 "a.txt").state.index ≠
      st1.index := by
  constructor
  · rfl
  · intro h
    simp [delete_file, st1, lookup, erase] at h

/-- C3 (amended): if the index save fails after the in-memory removal,
`delete_file` surfaces a sync-failure error message and returns failure,
but it does NOT re-insert the removed entry: the in-memory index after the
call is the initial index with the entry erased; the index file on disk
holds whatever the interrupted truncating write left there. -/
theorem delete_file_save_failure_drops_entry (s : CloudState) (name : String)
    (entry : IndexEntry) (e : String) (f : Option IndexDoc)
    (hmem : lookup s.index name = some entry) :
    (delete_file (.error (e, f)) s name).success = false ∧
    (delete_file (.error (e, f)) s name).message =
      "Error eliminando archivo del índice: " ++ e ∧
    (delete_file (.error (e, f)) s name).state.index = erase s.index name ∧
    (delete_file (.error (e, f)) s name).state.file = f := by
  simp [delete_file, hmem]

/-- Witness for `delete_file_save_failure_drops_entry` on a concrete run. -/
theorem delete_file_save_failure_drops_entry_witness :
    (delete_file (.error ("disk", some .invalid)) st1 "a.txt").success =
      false ∧
    (delete_file (.error ("disk", some .invalid)) st1 "a.txt").message =
      "Error eliminando archivo del índice: " ++ "disk" ∧
    (delete_file (.error ("disk", some .invalid)) st1 "a.txt").state.index =
      erase st1.index "a.txt" ∧
    (delete_file (.error ("disk", some .invalid)) st1 "a.txt").state.file =
      some IndexDoc.invalid :=
  delete_file_save_failure_drops_entry st1 "a.txt" entry0 "disk"
    (some .invalid) rfl

/-- C4: starting from a catalog without the resolved name, two `upload_file`
calls with the same bytes and names make exactly one `sendDocument` call in
total; the second call touches no network, reports success with the
already-identical message, leaves the state unchanged, and the catalog holds
exactly one entry for that name. -/
theorem upload_file_idempotent
    (md5 : List Nat → String) (env1 env2 : UploadEnv) (s : CloudState)
    (file_bytes : List Nat) (filename : String) (remote_name : Option String)
    (resp : SendResponse) (r1 r2 : OpResult)
    (hsize : ¬ file_bytes.length > 2 * 1024 * 1024 * 1024)
    (habsent : lookup s.index (resolveRemoteName remote_name filename) = none)
    (hsend : env1.send = .ok resp) (hst : resp.status = 200)
    (hok : resp.ok = true) (hsave : env1.saveResult = .ok ())
    (h1 : r1 = upload_file md5 env1 s file_bytes filename remote_name)
    (h2 : r2 = upload_file md5 env2 r1.state file_bytes filename remote_name) :
    r1.calls = [.sendDocument filename file_bytes] ∧
    r1.success = true ∧
    r2.calls = [] ∧
    r2.success = true ∧
    r2.message = "El archivo \x27" ++ resolveRemoteName remote_name filename ++
      "\x27 ya existe y es idéntico" ∧
    r2.state = r1.state ∧
    (r1.calls ++ r2.calls).countP isSendDocument = 1 ∧
    r2.state.index.countP
      (fun p => p.1 = resolveRemoteName remote_name filename) = 1 := by
  have hdedup : ∀ ent,
      lookup s.index (resolveRemoteName remote_name filename) = some ent →
      ent.hash ≠ md5 file_bytes := by
    intro ent hent
    rw [habsent] at hent
    exact absurd hent (by simp)
  rw [upload_file_success_eq md5 env1 s file_bytes filename remote_name resp
    hsize hdedup hsend hst hok hsave] at h1
  have hl2 : lookup r1.state.index (resolveRemoteName remote_name filename) =
      some ⟨resp.file_id, md5 file_bytes, file_bytes.length, env1.now, filename⟩ := by
    rw [h1]
    exact lookup_insert_self _ _ _
  rw [upload_file_dedup_eq md5 env2 r1.state file_bytes filename remote_name
    ⟨resp.file_id, md5 file_bytes, file_bytes.length, env1.now, filename⟩
    hsize hl2 rfl] at h2
  subst h1
  subst h2
  refine ⟨rfl, rfl, rfl, rfl, rfl, rfl, by simp [isSendDocument], ?_⟩
  rw [insert_of_lookup_none _ habsent, List.countP_append,
    countP_key_eq_zero habsent]
  simp

/-- Witness for `upload_file_idempotent` on a concrete double upload. -/
theorem upload_file_idempotent_witness :
    (upload_file md5c envOk st0 [1, 2, 3] "a.txt" none).calls =
      [.sendDocument "a.txt" [1, 2, 3]] ∧
    (upload_file md5c envOk st0 [1, 2, 3] "a.txt" none).success = true ∧
    (upload_file md5c envOk
      (upload_file md5c envOk st0 [1, 2, 3] "a.txt" none).state
      [1, 2, 3] "a.txt" none).calls = [] ∧
    (upload_file md5c envOk
      (upload_file md5c envOk st0 [1, 2, 3] "a.txt" none).state
      [1, 2, 3] "a.txt" none).success = true ∧
    (upload_file md5c envOk
      (upload_file md5c envOk st0 [1, 2, 3] "a.txt" none).state
      [1, 2, 3] "a.txt" none).message =
      "El archivo \x27" ++ resolveRemoteName none "a.txt" ++
        "\x27 ya existe y es idéntico" ∧
    (upload_file md5c envOk
      (upload_file md5c envOk st0 [1, 2, 3] "a.txt" none).state
      [1, 2, 3] "a.txt" none).state =
      (upload_file md5c envOk st0 [1, 2, 3] "a.txt" none).state ∧
    ((upload_file md5c envOk st0 [1, 2, 3] "a.txt" none).calls ++
      (upload_file md5c envOk
        (upload_file md5c envOk st0 [1, 2, 3] "a.txt" none).state
        [1, 2, 3] "a.txt" none).calls).countP isSendDocument = 1 ∧
    (upload_file md5c envOk
      (upload_file md5c envOk st0 [1, 2, 3] "a.txt" none).state
      [1, 2, 3] "a.txt" none).state.index.countP
      (fun p => p.1 = resolveRemoteName none "a.txt") = 1 :=
  upload_file_idempotent md5c envOk envOk st0 [1, 2, 3] "a.txt" none respOk
    (upload_file md5c envOk st0 [1, 2, 3] "a.txt" none)
    (upload_file md5c envOk
      (upload_file md5c envOk st0 [1, 2, 3] "a.txt" none).state
      [1, 2, 3] "a.txt" none)
    (by decide) rfl rfl rfl rfl rfl rfl rfl

/-- C5: after a successful `save_index`, loading the written index file in a
fresh session returns exactly the index that was saved, and the json
serialization of any index (with the unique keys every dict has)
round-trips to the same key set and field values. -/
theorem save_then_load_roundtrip (s s2 : CloudState)
    (hnd : (s.index.map Prod.fst).Nodup)
    (hsave : (save_index (.ok ()) s).1 = .ok s2) :
    load_index s2.file = (s.index, LogLevel.info) ∧
    indexOfJson (indexToJson s.index) = some s.index := by
  have hrt := indexOfJson_indexToJson hnd
  simp only [save_index, Except.ok.injEq] at hsave
  rw [← hsave]
  constructor
  · show ((indexOfJson (indexToJson s.index)).getD [], LogLevel.info) =
      (s.index, LogLevel.info)
    rw [hrt]
    rfl
  · exact hrt

/-- Witness for `save_then_load_roundtrip` on a one-entry catalog. -/
theorem save_then_load_roundtrip_witness :
    load_index (CloudState.mk st1.index
        (some (.valid (indexToJson st1.index)))).file =
      (st1.index, LogLevel.info) ∧
    indexOfJson (indexToJson st1.index) = some st1.index :=
  save_then_load_roundtrip st1
    (CloudState.mk st1.index (some (.valid (indexToJson st1.index))))
    (by simp [st1]) rfl

/-- C6: a payload strictly above 2 GiB (in particular one of exactly
2 GiB + 1 bytes) is rejected with the size-limit message, with no remote
call and no state change; a payload of exactly 2 GiB passes the size gate,
and on a fresh name with an acknowledged send and a successful save the
upload succeeds with exactly the one `sendDocument` call. -/
theorem upload_file_size_limit
    (md5 : List Nat → String) (env : UploadEnv) (s : CloudState)
    (file_bytes : List Nat) (filename : String) (remote_name : Option String)
    (resp : SendResponse) :
    (file_bytes.length > 2 * 1024 * 1024 * 1024 →
      upload_file md5 env s file_bytes filename remote_name =
        ⟨s, [], false, sizeLimitMsg⟩) ∧
    (file_bytes.length = 2 * 1024 * 1024 * 1024 + 1 →
      upload_file md5 env s file_bytes filename remote_name =
        ⟨s, [], false, sizeLimitMsg⟩) ∧
    (file_bytes.length = 2 * 1024 * 1024 * 1024 →
      lookup s.index (resolveRemoteName remote_name filename) = none →
      env.send = .ok resp → resp.status = 200 → resp.ok = true →
      env.saveResult = .ok () →
      (upload_file md5 env s file_bytes filename remote_name).success = true ∧
      (upload_file md5 env s file_bytes filename remote_name).calls =
        [.sendDocument filename file_bytes]) := by
  refine ⟨?_, ?_, ?_⟩
  · intro h
    simp [upload_file, h]
  · intro h
    have hgt : file_bytes.length > 2 * 1024 * 1024 * 1024 := by omega
    simp [upload_file, hgt]
  · intro hlen habsent hsend hst hok hsave
    have hsize : ¬ file_bytes.length > 2 * 1024 * 1024 * 1024 := by omega
    have hdedup : ∀ ent,
        lookup s.index (resolveRemoteName remote_name filename) = some ent →
        ent.hash ≠ md5 file_bytes := by
      intro ent hent
      rw [habsent] at hent
      exact absurd hent (by simp)
    rw [upload_file_success_eq md5 env s file_bytes filename remote_name resp
      hsize hdedup hsend hst hok hsave]
    exact ⟨rfl, rfl⟩

/-- Witness for `upload_file_size_limit` at the 2 GiB boundary. -/
theorem upload_file_size_limit_witness :
    upload_file md5c envOk st0
        (List.replicate (2 * 1024 * 1024 * 1024 + 1) 0) "a.txt" none =
      ⟨st0, [], false, sizeLimitMsg⟩ ∧
    (upload_file md5c envOk st0
        (List.replicate (2 * 1024 * 1024 * 1024) 0) "a.txt" none).success =
      true :=
  ⟨(upload_file_size_limit md5c envOk st0
      (List.replicate (2 * 1024 * 1024 * 1024 + 1) 0) "a.txt" none
      respOk).2.1 (List.length_replicate _ _),
   ((upload_file_size_limit md5c envOk st0
      (List.replicate (2 * 1024 * 1024 * 1024) 0) "a.txt" none
      respOk).2.2 (List.length_replicate _ _) rfl rfl rfl rfl rfl).1⟩

/-- C7: `load_index` never fails: a missing index file (first use) yields an
empty index with an info-level log, and an index file `json.load` cannot
parse yields an empty index while logging at a severity at least that of a
warning (the source logs at error level). -/
theorem load_index_missing_or_corrupt :
    load_index none = ([], LogLevel.info) ∧
    load_index (some .invalid) = ([], LogLevel.error) ∧
    LogLevel.warning.severity ≤ (load_index (some .invalid)).2.severity :=
  ⟨rfl, rfl, by decide⟩

/-- C8: after a successful (non-dedup) upload, the catalog maps the
resolved name to exactly the entry built from the call: the file_id the
backend returned, the digest of the uploaded bytes, their byte length, and
the upload name; any previous entry under that name is fully replaced, and
every other name is untouched. -/
theorem upload_file_success_entry
    (md5 : List Nat → String) (env : UploadEnv) (s : CloudState)
    (file_bytes : List Nat) (filename : String) (remote_name : Option String)
    (resp : SendResponse)
    (hsize : ¬ file_bytes.length > 2 * 1024 * 1024 * 1024)
    (hdedup : ∀ ent, lookup s.index (resolveRemoteName remote_name filename) =
      some ent → ent.hash ≠ md5 file_bytes)
    (hsend : env.send = .ok resp) (hst : resp.status = 200)
    (hok : resp.ok = true) (hsave : env.saveResult = .ok ()) :
    (upload_file md5 env s file_bytes filename remote_name).success = true ∧
    lookup (upload_file md5 env s file_bytes filename remote_name).state.index
        (resolveRemoteName remote_name filename) =
      some ⟨resp.file_id, md5 file_bytes, file_bytes.length, env.now,
        filename⟩ ∧
    (∀ k, k ≠ resolveRemoteName remote_name filename →
      lookup (upload_file md5 env s file_bytes filename remote_name).state.index
          k =
        lookup s.index k) := by
  rw [upload_file_success_eq md5 env s file_bytes filename remote_name resp
    hsize hdedup hsend hst hok hsave]
  refine ⟨rfl, lookup_insert_self _ _ _, ?_⟩
  intro k hk
  exact lookup_insert_ne _ _ _ _ hk

/-- Witness for `upload_file_success_entry`: re-upload of `a.txt` with
different content replaces the old entry (old digest `hX`, new digest
`md5c [1, 2, 3]`). -/
theorem upload_file_success_entry_witness :
    (upload_file md5c envOk st1 [1, 2, 3] "a.txt" none).success = true ∧
    lookup (upload_file md5c envOk st1 [1, 2, 3] "a.txt" none).state.index
        (resolveRemoteName none "a.txt") =
      some ⟨respOk.file_id, md5c [1, 2, 3], [1, 2, 3].length, envOk.now,
        "a.txt"⟩ :=
  ⟨(upload_file_success_entry md5c envOk st1 [1, 2, 3] "a.txt" none respOk
      (by decide)
      (by
        intro ent hent
        have h : some entry0 = some ent := hent
        injection h with h2
        subst h2
        decide)
      rfl rfl rfl rfl).1,
   (upload_file_success_entry md5c envOk st1 [1, 2, 3] "a.txt" none respOk
      (by decide)
      (by
        intro ent hent
        have h : some entry0 = some ent := hent
        injection h with h2
        subst h2
        decide)
      rfl rfl rfl rfl).2.1⟩

/-- C9: a successful `delete_file` removes exactly the named entry: it makes
no Remote Object Channel call at all (in particular none that would remove
the remote binary), the named entry is gone, and every other entry is
unchanged. -/
theorem delete_file_removes_only_entry (s : CloudState) (name : String)
    (entry : IndexEntry)
    (hnd : (s.index.map Prod.fst).Nodup)
    (hmem : lookup s.index name = some entry) :
    (delete_file (.ok ()) s name).success = true ∧
    (delete_file (.ok ()) s name).calls = [] ∧
    lookup (delete_file (.ok ()) s name).state.index name = none ∧
    ∀ k, k ≠ name →
      lookup (delete_file (.ok ()) s name).state.index k =
        lookup s.index k := by
  have hidx : (delete_file (.ok ()) s name).state.index =
      erase s.index name := by
    simp [delete_file, hmem]
  refine ⟨?_, ?_, ?_, ?_⟩
  · simp [delete_file, hmem]
  · simp [delete_file, hmem]
  · rw [hidx]
    exact lookup_erase_self name hnd
  · intro k hk
    rw [hidx]
    exact lookup_erase_ne _ _ _ hk

/-- Witness for `delete_file_removes_only_entry` on a one-entry catalog. -/
theorem delete_file_removes_only_entry_witness :
    (delete_file (.ok ()) st1 "a.txt").success = true ∧
    (delete_file (.ok ()) st1 "a.txt").calls = [] ∧
    lookup (delete_file (.ok ()) st1 "a.txt").state.index "a.txt" = none :=
  ⟨(delete_file_removes_only_entry st1 "a.txt" entry0 (by decide) rfl).1,
   (delete_file_removes_only_entry st1 "a.txt" entry0 (by decide) rfl).2.1,
   (delete_file_removes_only_entry st1 "a.txt" entry0 (by decide) rfl).2.2.1⟩

/-- C10 (counterexample): the claim says no entry can ever be keyed by the
empty string through the `remote_name or filename` defaulting.  Uploading
with an empty upload name and an empty remote name produces an entry keyed
by the empty string. -/
theorem upload_file_empty_name_counterexample :
    lookup (upload_file md5c envOk st0 [7] "" (some "")).state.index "" =
      some ⟨"fid1", md5c [7], 1, "2024-01-01T00:00:00", ""⟩ ∧
    lookup (upload_file md5c envOk st0 [7] "" (some "")).state.index "" ≠
      none := by
  constructor
  · rfl
  · intro h
    rw [show lookup (upload_file md5c envOk st0 [7] "" (some "")).state.index
        "" = some ⟨"fid1", md5c [7], 1, "2024-01-01T00:00:00", ""⟩ from rfl]
      at h
    exact absurd h (by simp)

/-- C10 (amended): an empty-string remote name behaves exactly like an
omitted one - both default to the upload name - and when the upload name is
nonempty and the catalog has no empty-string key, the call cannot create
one; an empty upload name, however, does yield an entry keyed by the empty
string. -/
theorem upload_file_empty_remote_name (md5 : List Nat → String)
    (env : UploadEnv) (s : CloudState) (file_bytes : List Nat)
    (filename : String) :
    upload_file md5 env s file_bytes filename (some "") =
      upload_file md5 env s file_bytes filename none ∧
    resolveRemoteName (some "") filename = filename ∧
    (filename ≠ "" → lookup s.index "" = none →
      lookup (upload_file md5 env s file_bytes filename
          (some "")).state.index "" = none) := by
  have hres : resolveRemoteName (some "") filename = filename := by
    simp [resolveRemoteName]
  refine ⟨?_, hres, ?_⟩
  · simp [upload_file, resolveRemoteName]
  · intro hfn hnone
    rw [upload_file_lookup_ne md5 env s file_bytes filename (some "") ""
      (by rw [hres]; exact Ne.symm hfn)]
    exact hnone

/-- Witness for `upload_file_empty_remote_name` on a concrete upload. -/
theorem upload_file_empty_remote_name_witness :
    upload_file md5c envOk st0 [7] "a.txt" (some "") =
      upload_file md5c envOk st0 [7] "a.txt" none ∧
    lookup (upload_file md5c envOk st0 [7] "a.txt"
        (some "")).state.index "" = none :=
  ⟨(upload_file_empty_remote_name md5c envOk st0 [7] "a.txt").1,
   (upload_file_empty_remote_name md5c envOk st0 [7] "a.txt").2.2
     (by decide) rfl⟩

end TelegramCloud
